import Mathlib

/-!
Shallow embedding of the rusty_hangul core (src/core/src/hangul_letter.rs and
src/core/src/hangul.rs) together with models of the crate modules they use
(nfc, nfd, choseong, jungseong, jongseong), which are declared in the crate
but whose source files are not in the provided tree; those are modelled from
the specification.

Characters (Rust char, Unicode scalar values) are embedded as Nat codepoints;
Rust strings, iterated by chars(), are embedded as List Nat. The std
OnceLock caches of Hangul are embedded as Option fields with explicit state
passing: a query returns the value together with the possibly-updated Hangul.
-/

namespace RustyHangul

/-- Modelled from the spec: the NFC engine's single-character check (the
crate module nfc is not in the provided sources). Per section 4.1 the
codepoint must lie in the precomposed Hangul syllable range U+AC00..U+D7A3. -/
def NFC.is_nfc_hangul_char (c : Nat) : Bool :=
  0xAC00 ≤ c && c ≤ 0xD7A3

/-- Modelled from the spec: the NFC engine's string check. Per the error
contract (section 7 and the scenarios of section 8, together with the in-repo
test requiring a two-syllable string to be rejected by HangulLetter.parse),
a string qualifies exactly when it consists of a single character whose
codepoint is a precomposed Hangul syllable. -/
def NFC.is_nfc_hangul (string : List Nat) : Bool :=
  match string with
  | [c] => NFC.is_nfc_hangul_char c
  | _ => false

/-- Modelled from the spec: standalone leading-consonant jamo range
U+1100..U+1112 (section 3). -/
def NFD.is_choseong_code (c : Nat) : Bool :=
  0x1100 ≤ c && c ≤ 0x1112

/-- Modelled from the spec: standalone vowel jamo range U+1161..U+1175
(section 3). -/
def NFD.is_jungseong_code (c : Nat) : Bool :=
  0x1161 ≤ c && c ≤ 0x1175

/-- Modelled from the spec: standalone trailing-consonant jamo range
U+11A8..U+11C2 (section 3). -/
def NFD.is_jongseong_code (c : Nat) : Bool :=
  0x11A8 ≤ c && c ≤ 0x11C2

/-- Modelled from the spec: the NFD engine's validation (section 4.2): a
well-formed decomposed jamo run is exactly 2 characters (leading, vowel) or
3 characters (leading, vowel, trailing), each from its standalone range;
any other shape is rejected. -/
def NFD.is_nfd_hangul (string : List Nat) : Bool :=
  match string with
  | [cho, jung] => NFD.is_choseong_code cho && NFD.is_jungseong_code jung
  | [cho, jung, jong] =>
      NFD.is_choseong_code cho && NFD.is_jungseong_code jung &&
        NFD.is_jongseong_code jong
  | _ => false

/-- The decomposition triple returned by the NFD engine. -/
structure NFD where
  cho : Nat
  jung : Nat
  jong : Option Nat
deriving DecidableEq, Repr

/-- Modelled from the spec: the NFD engine's arithmetic block decomposition
(section 4.2): index = codepoint - 0xAC00; leading = 0x1100 + index / (21*28);
vowel = 0x1161 + (index / 28) mod 21; trailing = 0x11A7 + index mod 28 when
index mod 28 > 0, else absent; fails (absent result) outside the precomposed
range. -/
def NFD.normalize (unicode : Nat) : Option NFD :=
  if NFC.is_nfc_hangul_char unicode then
    let index := unicode - 0xAC00
    some { cho := 0x1100 + index / (21 * 28),
           jung := 0x1161 + (index / 28) % 21,
           jong := if index % 28 > 0 then some (0x11A7 + index % 28) else none }
  else
    none

/-- A leading consonant with its compatibility display character. -/
structure Choseong where
  compatibility_value : Nat
deriving DecidableEq, Repr

/-- Modelled from the spec: the fixed ordered Choseong table (section 4.3),
the canonical Unicode Hangul Compatibility Jamo mapping for the 19 leading
consonants U+1100..U+1112. -/
def Choseong.COMPATIBILITY_TABLE : List Nat :=
  [0x3131, 0x3132, 0x3134, 0x3137, 0x3138, 0x3139, 0x3141, 0x3142, 0x3143,
   0x3145, 0x3146, 0x3147, 0x3148, 0x3149, 0x314A, 0x314B, 0x314C, 0x314D,
   0x314E]

/-- Modelled from the spec: Choseong construction from a standalone-jamo
codepoint, indexing the fixed table by codepoint - 0x1100 (section 4.3). -/
def Choseong.new (code : Nat) : Choseong :=
  { compatibility_value := Choseong.COMPATIBILITY_TABLE.getD (code - 0x1100) 0 }

/-- A vowel with its compatibility display character. -/
structure Jungseong where
  compatibility_value : Nat
deriving DecidableEq, Repr

/-- Modelled from the spec: the fixed ordered Jungseong table (section 4.3),
the canonical Unicode Hangul Compatibility Jamo mapping for the 21 vowels
U+1161..U+1175. -/
def Jungseong.COMPATIBILITY_TABLE : List Nat :=
  [0x314F, 0x3150, 0x3151, 0x3152, 0x3153, 0x3154, 0x3155, 0x3156, 0x3157,
   0x3158, 0x3159, 0x315A, 0x315B, 0x315C, 0x315D, 0x315E, 0x315F, 0x3160,
   0x3161, 0x3162, 0x3163]

/-- Modelled from the spec: Jungseong construction from a standalone-jamo
codepoint, indexing the fixed table by codepoint - 0x1161 (section 4.3). -/
def Jungseong.new (code : Nat) : Jungseong :=
  { compatibility_value := Jungseong.COMPATIBILITY_TABLE.getD (code - 0x1161) 0 }

/-- A trailing consonant: its single compatibility display character and the
one or two compatibility characters of its disassembled form (two exactly for
the 11 composite clusters). -/
structure Jongseong where
  compatibility_value : Nat
  disassembled : List Nat
deriving DecidableEq, Repr

/-- Modelled from the spec: the fixed ordered Jongseong table (sections 3 and
4.3), the canonical Unicode Hangul Compatibility Jamo mapping for the 27
trailing consonants U+11A8..U+11C2; 11 of the 27 are composite clusters whose
disassembled form is the two underlying simple consonants (also witnessed by
the in-repo tests: the final of U+AC12 displays as the single compatibility
cluster character 0x3144 but disassembles to the pair 0x3142, 0x3145). -/
def Jongseong.COMPATIBILITY_TABLE : List (Nat × List Nat) :=
  [(0x3131, [0x3131]),
   (0x3132, [0x3132]),
   (0x3133, [0x3131, 0x3145]),
   (0x3134, [0x3134]),
   (0x3135, [0x3134, 0x3148]),
   (0x3136, [0x3134, 0x314E]),
   (0x3137, [0x3137]),
   (0x3139, [0x3139]),
   (0x313A, [0x3139, 0x3131]),
   (0x313B, [0x3139, 0x3141]),
   (0x313C, [0x3139, 0x3142]),
   (0x313D, [0x3139, 0x3145]),
   (0x313E, [0x3139, 0x314C]),
   (0x313F, [0x3139, 0x314D]),
   (0x3140, [0x3139, 0x314E]),
   (0x3141, [0x3141]),
   (0x3142, [0x3142]),
   (0x3144, [0x3142, 0x3145]),
   (0x3145, [0x3145]),
   (0x3146, [0x3146]),
   (0x3147, [0x3147]),
   (0x3148, [0x3148]),
   (0x314A, [0x314A]),
   (0x314B, [0x314B]),
   (0x314C, [0x314C]),
   (0x314D, [0x314D]),
   (0x314E, [0x314E])]

/-- Modelled from the spec: Jongseong construction from a standalone-jamo
codepoint, indexing the fixed table by codepoint - 0x11A8 (section 4.3). -/
def Jongseong.new (code : Nat) : Jongseong :=
  let entry := Jongseong.COMPATIBILITY_TABLE.getD (code - 0x11A8) (0, [])
  { compatibility_value := entry.1, disassembled := entry.2 }

/-- Modelled from the spec: appending a trailing consonant's one or two
disassembled display characters to the output (sections 4.3 and 4.4). -/
def Jongseong.append_disassembled (j : Jongseong) (output : List Nat) : List Nat :=
  output ++ j.disassembled

/-- HangulLetter from src/core/src/hangul_letter.rs. The fixed arrays
value_chars and unicode_codes (length 3, padded with the 0 codepoint) are
both Lists of codepoints here, since chars are embedded as codepoints. -/
structure HangulLetter where
  value_chars : List Nat
  unicode_codes : List Nat
  len : Nat
  nfc : Option Nat
  choseong : Choseong
  jungseong : Jungseong
  jongseong : Option Jongseong
deriving DecidableEq, Repr

/-- HangulLetter.parse from hangul_letter.rs lines 18-71. The two match
fallbacks returning none in the NFC branch embed the source's unwrap calls;
they are unreachable when the NFC guard holds. -/
def HangulLetter.parse (string : List Nat) : Option HangulLetter :=
  if NFC.is_nfc_hangul string then
    match string.head? with
    | none => none
    | some ch =>
      match NFD.normalize ch with
      | none => none
      | some nfd =>
        some { value_chars := [ch, 0, 0],
               unicode_codes := [ch, 0, 0],
               len := 1,
               nfc := some ch,
               choseong := Choseong.new nfd.cho,
               jungseong := Jungseong.new nfd.jung,
               jongseong := nfd.jong.map Jongseong.new }
  else if NFD.is_nfd_hangul string then
    match string with
    | [c1, c2] =>
      some { value_chars := [c1, c2, 0],
             unicode_codes := [c1, c2, 0],
             len := 2,
             nfc := none,
             choseong := Choseong.new c1,
             jungseong := Jungseong.new c2,
             jongseong := none }
    | [c1, c2, c3] =>
      some { value_chars := [c1, c2, c3],
             unicode_codes := [c1, c2, c3],
             len := 3,
             nfc := none,
             choseong := Choseong.new c1,
             jungseong := Jungseong.new c2,
             jongseong := some (Jongseong.new c3) }
    | _ => none
  else
    none

/-- HangulLetter.parse_from_char from hangul_letter.rs lines 73-93. -/
def HangulLetter.parse_from_char (nfc_char : Nat) : Option HangulLetter :=
  if NFC.is_nfc_hangul_char nfc_char then
    match NFD.normalize nfc_char with
    | none => none
    | some nfd =>
      some { value_chars := [nfc_char, 0, 0],
             unicode_codes := [nfc_char, 0, 0],
             len := 1,
             nfc := some nfc_char,
             choseong := Choseong.new nfd.cho,
             jungseong := Jungseong.new nfd.jung,
             jongseong := nfd.jong.map Jongseong.new }
  else
    none

/-- HangulLetter.value_nfc from hangul_letter.rs lines 103-105. -/
def HangulLetter.value_nfc (l : HangulLetter) : Option Nat :=
  l.nfc

/-- HangulLetter.append_disassembled from hangul_letter.rs lines 111-118. -/
def HangulLetter.append_disassembled (l : HangulLetter) (output : List Nat) :
    List Nat :=
  let output2 := output ++ [l.choseong.compatibility_value,
                            l.jungseong.compatibility_value]
  match l.jongseong with
  | some jong => jong.append_disassembled output2
  | none => output2

/-- HangulLetter.disassemble from hangul_letter.rs lines 120-126. -/
def HangulLetter.disassemble (l : HangulLetter) : List Nat :=
  l.append_disassembled []

/-- HangulLetter.has_batchim from hangul_letter.rs lines 128-130. -/
def HangulLetter.has_batchim (l : HangulLetter) : Bool :=
  l.jongseong.isSome

/-- CharUnit from src/core/src/hangul.rs. -/
structure CharUnit where
  original : Nat
  hangul : Option HangulLetter
deriving DecidableEq, Repr

/-- Hangul from src/core/src/hangul.rs; the two OnceLock caches are Options,
none meaning not yet initialized. -/
structure Hangul where
  char_units : List CharUnit
  original : List Nat
  disassembled_cache : Option (List Nat)
  choseong_cache : Option (List Nat)
deriving DecidableEq, Repr

/-- Hangul.new from hangul.rs lines 19-35. -/
def Hangul.new (string : List Nat) : Hangul :=
  { char_units := string.map fun ch =>
      { original := ch, hangul := HangulLetter.parse_from_char ch },
    original := string,
    disassembled_cache := none,
    choseong_cache := none }

/-- Hangul.len from hangul.rs lines 41-43. -/
def Hangul.len (h : Hangul) : Nat :=
  h.char_units.length

/-- Hangul.is_empty from hangul.rs lines 45-47. -/
def Hangul.is_empty (h : Hangul) : Bool :=
  h.char_units.isEmpty

/-- Hangul.disassemble_uncached from hangul.rs lines 63-78; the push loop is
a foldl over the units. -/
def Hangul.disassemble_uncached (h : Hangul) : List Nat :=
  if h.is_empty then []
  else
    h.char_units.foldl
      (fun result unit =>
        match unit.hangul with
        | some hl => hl.append_disassembled result
        | none => result ++ [unit.original])
      []

/-- Hangul.choseong_uncached from hangul.rs lines 80-95. -/
def Hangul.choseong_uncached (h : Hangul) : List Nat :=
  if h.is_empty then []
  else
    h.char_units.foldl
      (fun result unit =>
        match unit.hangul with
        | some hl => result ++ [hl.choseong.compatibility_value]
        | none => result ++ [unit.original])
      []

/-- Hangul.disassemble from hangul.rs lines 49-54: OnceLock.get_or_init,
returning the value together with the updated instance. -/
def Hangul.disassemble (h : Hangul) : List Nat × Hangul :=
  match h.disassembled_cache with
  | some v => (v, h)
  | none =>
    let v := h.disassemble_uncached
    (v, { h with disassembled_cache := some v })

/-- Hangul.get_choseong from hangul.rs lines 56-61: OnceLock.get_or_init,
returning the value together with the updated instance. -/
def Hangul.get_choseong (h : Hangul) : List Nat × Hangul :=
  match h.choseong_cache with
  | some v => (v, h)
  | none =>
    let v := h.choseong_uncached
    (v, { h with choseong_cache := some v })

/-- The letter produced by parsing the decomposed run U+1100 U+1161 (used as
a concrete instance in witnesses). -/
def letterGa2 : HangulLetter :=
  { value_chars := [0x1100, 0x1161, 0],
    unicode_codes := [0x1100, 0x1161, 0],
    len := 2,
    nfc := none,
    choseong := { compatibility_value := 0x3131 },
    jungseong := { compatibility_value := 0x314F },
    jongseong := none }

/-- The letter produced by parsing the precomposed syllable U+AC12 (used as
a concrete instance in witnesses). -/
def letterGabs : HangulLetter :=
  { value_chars := [0xAC12, 0, 0],
    unicode_codes := [0xAC12, 0, 0],
    len := 1,
    nfc := some 0xAC12,
    choseong := { compatibility_value := 0x3131 },
    jungseong := { compatibility_value := 0x314F },
    jongseong := some { compatibility_value := 0x3144,
                        disassembled := [0x3142, 0x3145] } }

/-- The contribution of one CharUnit to the disassembled whole-string output
(the body of the loop in Hangul.disassemble_uncached, per unit). -/
def CharUnit.disContribution (u : CharUnit) : List Nat :=
  match u.hangul with
  | some hl => hl.disassemble
  | none => [u.original]

/-- The contribution of one CharUnit to the choseong whole-string output
(the body of the loop in Hangul.choseong_uncached, per unit). -/
def CharUnit.choContribution (u : CharUnit) : List Nat :=
  match u.hangul with
  | some hl => [hl.choseong.compatibility_value]
  | none => [u.original]

end RustyHangul

namespace RustyHangul

lemma append_disassembled_eq (l : HangulLetter) (output : List Nat) :
    l.append_disassembled output = output ++ l.disassemble := by
  cases h : l.jongseong <;>
    simp [HangulLetter.append_disassembled, HangulLetter.disassemble,
          Jongseong.append_disassembled, h]

lemma disassemble_shape (l : HangulLetter) :
    l.disassemble =
      l.choseong.compatibility_value :: l.jungseong.compatibility_value ::
        (match l.jongseong with
         | some j => j.disassembled
         | none => ([] : List Nat)) := by
  cases h : l.jongseong <;>
    simp [HangulLetter.disassemble, HangulLetter.append_disassembled,
          Jongseong.append_disassembled, h]

lemma disassemble_foldl_eq (units : List CharUnit) (acc : List Nat) :
    units.foldl
        (fun result unit =>
          match unit.hangul with
          | some hl => hl.append_disassembled result
          | none => result ++ [unit.original])
        acc
      = acc ++ (units.map CharUnit.disContribution).flatten := by
  induction units generalizing acc with
  | nil => simp
  | cons u us ih =>
    rw [List.foldl_cons, ih]
    cases hu : u.hangul <;>
      simp [CharUnit.disContribution, hu, append_disassembled_eq]

lemma choseong_foldl_eq (units : List CharUnit) (acc : List Nat) :
    units.foldl
        (fun result unit =>
          match unit.hangul with
          | some hl => result ++ [hl.choseong.compatibility_value]
          | none => result ++ [unit.original])
        acc
      = acc ++ (units.map CharUnit.choContribution).flatten := by
  induction units generalizing acc with
  | nil => simp
  | cons u us ih =>
    rw [List.foldl_cons, ih]
    cases hu : u.hangul <;> simp [CharUnit.choContribution, hu]

lemma disassemble_uncached_eq (h : Hangul) :
    h.disassemble_uncached = (h.char_units.map CharUnit.disContribution).flatten := by
  rw [Hangul.disassemble_uncached]
  split
  · rename_i hemp
    have hnil : h.char_units = [] := by
      simpa [Hangul.is_empty, List.isEmpty_iff] using hemp
    simp [hnil]
  · simpa using disassemble_foldl_eq h.char_units []

lemma choseong_uncached_eq (h : Hangul) :
    h.choseong_uncached = (h.char_units.map CharUnit.choContribution).flatten := by
  rw [Hangul.choseong_uncached]
  split
  · rename_i hemp
    have hnil : h.char_units = [] := by
      simpa [Hangul.is_empty, List.isEmpty_iff] using hemp
    simp [hnil]
  · simpa using choseong_foldl_eq h.char_units []

lemma new_disassemble_fst (s : List Nat) :
    ((Hangul.new s).disassemble).1 = (Hangul.new s).disassemble_uncached := by
  simp [Hangul.disassemble, Hangul.new]

lemma new_choseong_fst (s : List Nat) :
    ((Hangul.new s).get_choseong).1 = (Hangul.new s).choseong_uncached := by
  simp [Hangul.get_choseong, Hangul.new]

lemma parse_from_char_none_of (c : Nat)
    (hc : NFC.is_nfc_hangul_char c = false) :
    HangulLetter.parse_from_char c = none := by
  simp [HangulLetter.parse_from_char, hc]

lemma flatten_map_singleton (s : List Nat) : (s.map fun c => [c]).flatten = s := by
  induction s <;> simp [*]

lemma choContribution_length (u : CharUnit) : u.choContribution.length = 1 := by
  cases h : u.hangul <;> simp [CharUnit.choContribution, h]

lemma flatten_cho_length (units : List CharUnit) :
    ((units.map CharUnit.choContribution).flatten).length = units.length := by
  induction units with
  | nil => simp
  | cons u us ih => simp [ih, choContribution_length, Nat.add_comm]

end RustyHangul

namespace RustyHangul

lemma Jongseong.new_disassembled_length (code : Nat)
    (h1 : 0x11A8 ≤ code) (h2 : code ≤ 0x11C2) :
    (Jongseong.new code).disassembled.length = 1 ∨
      (Jongseong.new code).disassembled.length = 2 := by
  interval_cases code <;> decide

lemma normalize_jong_range (u : Nat) (nfd : NFD) (code : Nat)
    (hn : NFD.normalize u = some nfd) (hj : nfd.jong = some code) :
    0x11A8 ≤ code ∧ code ≤ 0x11C2 := by
  unfold NFD.normalize at hn
  split at hn
  · simp only [Option.some.injEq] at hn
    subst hn
    simp only at hj
    split at hj
    · rename_i ht
      simp only [Option.some.injEq] at hj
      have hlt : (u - 0xAC00) % 28 < 28 := Nat.mod_lt _ (by norm_num)
      omega
    · exact absurd hj (by simp)
  · exact absurd hn (by simp)

lemma parse_some_cases (s : List Nat) (l : HangulLetter)
    (hp : HangulLetter.parse s = some l) :
    (∃ ch nfd, NFD.normalize ch = some nfd ∧
      l = { value_chars := [ch, 0, 0], unicode_codes := [ch, 0, 0], len := 1,
            nfc := some ch, choseong := Choseong.new nfd.cho,
            jungseong := Jungseong.new nfd.jung,
            jongseong := nfd.jong.map Jongseong.new }) ∨
    (∃ c1 c2,
      l = { value_chars := [c1, c2, 0], unicode_codes := [c1, c2, 0],
            len := 2, nfc := none, choseong := Choseong.new c1,
            jungseong := Jungseong.new c2, jongseong := none }) ∨
    (∃ c1 c2 c3, NFD.is_jongseong_code c3 = true ∧
      l = { value_chars := [c1, c2, c3], unicode_codes := [c1, c2, c3],
            len := 3, nfc := none, choseong := Choseong.new c1,
            jungseong := Jungseong.new c2,
            jongseong := some (Jongseong.new c3) }) := by
  unfold HangulLetter.parse at hp
  split at hp
  · split at hp
    · exact absurd hp (by simp)
    · rename_i ch hch
      split at hp
      · exact absurd hp (by simp)
      · rename_i nfd hn
        simp only [Option.some.injEq] at hp
        exact Or.inl ⟨ch, nfd, hn, hp.symm⟩
  · split at hp
    · rename_i hnfd
      split at hp
      · simp only [Option.some.injEq] at hp
        exact Or.inr (Or.inl ⟨_, _, hp.symm⟩)
      · simp only [Option.some.injEq] at hp
        refine Or.inr (Or.inr ⟨_, _, _, ?_, hp.symm⟩)
        simp only [NFD.is_nfd_hangul, Bool.and_eq_true] at hnfd
        exact hnfd.2
      · exact absurd hp (by simp)
    · exact absurd hp (by simp)

lemma parse_from_char_some_cases (c : Nat) (l : HangulLetter)
    (hp : HangulLetter.parse_from_char c = some l) :
    ∃ nfd, NFD.normalize c = some nfd ∧
      l = { value_chars := [c, 0, 0], unicode_codes := [c, 0, 0], len := 1,
            nfc := some c, choseong := Choseong.new nfd.cho,
            jungseong := Jungseong.new nfd.jung,
            jongseong := nfd.jong.map Jongseong.new } := by
  unfold HangulLetter.parse_from_char at hp
  split at hp
  · split at hp
    · exact absurd hp (by simp)
    · rename_i nfd hn
      simp only [Option.some.injEq] at hp
      exact ⟨nfd, hn, hp.symm⟩
  · exact absurd hp (by simp)

lemma parse_jong_length (s : List Nat) (l : HangulLetter) (j : Jongseong)
    (hp : HangulLetter.parse s = some l) (hj : l.jongseong = some j) :
    j.disassembled.length = 1 ∨ j.disassembled.length = 2 := by
  rcases parse_some_cases s l hp with ⟨ch, nfd, hn, rfl⟩ | ⟨c1, c2, rfl⟩ |
    ⟨c1, c2, c3, hc3, rfl⟩
  · simp only [Option.map_eq_some'] at hj
    obtain ⟨code, hcode, rfl⟩ := hj
    obtain ⟨hb1, hb2⟩ := normalize_jong_range ch nfd code hn hcode
    exact Jongseong.new_disassembled_length code hb1 hb2
  · exact absurd hj (by simp)
  · simp only [Option.some.injEq] at hj
    subst hj
    simp only [NFD.is_jongseong_code, Bool.and_eq_true, decide_eq_true_eq] at hc3
    exact Jongseong.new_disassembled_length c3 hc3.1 hc3.2

lemma parse_from_char_jong_length (c : Nat) (l : HangulLetter) (j : Jongseong)
    (hp : HangulLetter.parse_from_char c = some l) (hj : l.jongseong = some j) :
    j.disassembled.length = 1 ∨ j.disassembled.length = 2 := by
  obtain ⟨nfd, hn, rfl⟩ := parse_from_char_some_cases c l hp
  simp only [Option.map_eq_some'] at hj
  obtain ⟨code, hcode, rfl⟩ := hj
  obtain ⟨hb1, hb2⟩ := normalize_jong_range c nfd code hn hcode
  exact Jongseong.new_disassembled_length code hb1 hb2

end RustyHangul

namespace RustyHangul

/-- C1: for every character whose codepoint lies in U+AC00..U+D7A3,
HangulLetter.parse_from_char returns a letter whose Choseong is constructed
from 0x1100 + index / (21*28), whose Jungseong is constructed from
0x1161 + (index / 28) mod 21, and whose Jongseong is constructed from
0x11A7 + (index mod 28) and is present exactly when index mod 28 > 0,
where index = codepoint - 0xAC00. -/
theorem parse_from_char_block_decomposition (c : Nat)
    (h1 : 0xAC00 ≤ c) (h2 : c ≤ 0xD7A3) :
    (HangulLetter.parse_from_char c).map
        (fun l => (l.choseong, l.jungseong, l.jongseong)) =
      some (Choseong.new (0x1100 + (c - 0xAC00) / (21 * 28)),
            Jungseong.new (0x1161 + ((c - 0xAC00) / 28) % 21),
            if (c - 0xAC00) % 28 > 0 then
              some (Jongseong.new (0x11A7 + (c - 0xAC00) % 28))
            else none) := by
  have hc : NFC.is_nfc_hangul_char c = true := by
    simp only [NFC.is_nfc_hangul_char, Bool.and_eq_true, decide_eq_true_eq]
    exact ⟨h1, h2⟩
  have hn : NFD.normalize c =
      some { cho := 0x1100 + (c - 0xAC00) / (21 * 28),
             jung := 0x1161 + ((c - 0xAC00) / 28) % 21,
             jong := if (c - 0xAC00) % 28 > 0 then
                 some (0x11A7 + (c - 0xAC00) % 28)
               else none } := by
    rw [NFD.normalize, if_pos hc]
  rw [HangulLetter.parse_from_char, if_pos hc, hn]
  dsimp only
  rw [Option.map_some']
  dsimp only
  rw [apply_ite (Option.map Jongseong.new)]
  simp only [Option.map_some', Option.map_none']

/-- Witness for C1 at the concrete syllable U+AC12. -/
theorem parse_from_char_block_decomposition_witness :
    0xAC00 ≤ 0xAC12 ∧ 0xAC12 ≤ 0xD7A3 ∧
    (HangulLetter.parse_from_char 0xAC12).map
        (fun l => (l.choseong, l.jungseong, l.jongseong)) =
      some (Choseong.new (0x1100 + (0xAC12 - 0xAC00) / (21 * 28)),
            Jungseong.new (0x1161 + ((0xAC12 - 0xAC00) / 28) % 21),
            if (0xAC12 - 0xAC00) % 28 > 0 then
              some (Jongseong.new (0x11A7 + (0xAC12 - 0xAC00) % 28))
            else none) :=
  ⟨by decide, by decide,
   parse_from_char_block_decomposition 0xAC12 (by decide) (by decide)⟩

/-- C2: HangulLetter.parse returns an absent result for every string that is
neither exactly one precomposed Hangul syllable character nor a well-formed
2-3 character decomposed jamo run. -/
theorem parse_rejects_invalid (s : List Nat)
    (hnfc : NFC.is_nfc_hangul s = false)
    (hnfd : NFD.is_nfd_hangul s = false) :
    HangulLetter.parse s = none := by
  simp [HangulLetter.parse, hnfc, hnfd]

/-- Witness for C2 at the particular inputs the claim lists: the empty
string, a lone leading consonant, a lone vowel, two leading consonants in a
row, and a leading+trailing pair with no vowel. -/
theorem parse_rejects_invalid_witness :
    HangulLetter.parse [] = none ∧
    HangulLetter.parse [0x1100] = none ∧
    HangulLetter.parse [0x1161] = none ∧
    HangulLetter.parse [0x1100, 0x1100] = none ∧
    HangulLetter.parse [0x1100, 0x11AB] = none :=
  ⟨parse_rejects_invalid [] (by decide) (by decide),
   parse_rejects_invalid [0x1100] (by decide) (by decide),
   parse_rejects_invalid [0x1161] (by decide) (by decide),
   parse_rejects_invalid [0x1100, 0x1100] (by decide) (by decide),
   parse_rejects_invalid [0x1100, 0x11AB] (by decide) (by decide)⟩

/-- C3: for every string containing no precomposed Hangul syllable codepoint
(U+AC00..U+D7A3), whole-string disassembly and choseong extraction return
the string unchanged. -/
theorem non_hangul_passthrough (s : List Nat)
    (hs : ∀ c ∈ s, ¬ (0xAC00 ≤ c ∧ c ≤ 0xD7A3)) :
    ((Hangul.new s).disassemble).1 = s ∧
    ((Hangul.new s).get_choseong).1 = s := by
  have hnone : ∀ c ∈ s, HangulLetter.parse_from_char c = none := by
    intro c hc
    apply parse_from_char_none_of
    rw [Bool.eq_false_iff]
    simp only [ne_eq, NFC.is_nfc_hangul_char, Bool.and_eq_true,
      decide_eq_true_eq]
    exact hs c hc
  constructor
  · rw [new_disassemble_fst, disassemble_uncached_eq]
    have hmap : (Hangul.new s).char_units.map CharUnit.disContribution
        = s.map fun c => [c] := by
      simp only [Hangul.new, List.map_map]
      refine List.map_congr_left ?_
      intro c hc
      simp [Function.comp, CharUnit.disContribution, hnone c hc]
    rw [hmap, flatten_map_singleton]
  · rw [new_choseong_fst, choseong_uncached_eq]
    have hmap : (Hangul.new s).char_units.map CharUnit.choContribution
        = s.map fun c => [c] := by
      simp only [Hangul.new, List.map_map]
      refine List.map_congr_left ?_
      intro c hc
      simp [Function.comp, CharUnit.choContribution, hnone c hc]
    rw [hmap, flatten_map_singleton]

/-- Witness for C3 at a string made only of standalone NFD jamo codepoints. -/
theorem non_hangul_passthrough_witness :
    ((Hangul.new [0x1100, 0x1161, 0x11AB]).disassemble).1
        = [0x1100, 0x1161, 0x11AB] ∧
    ((Hangul.new [0x1100, 0x1161, 0x11AB]).get_choseong).1
        = [0x1100, 0x1161, 0x11AB] :=
  non_hangul_passthrough [0x1100, 0x1161, 0x11AB] (by decide)

/-- C4: every parsed HangulLetter disassembles to its Choseong display
character, then its Jungseong display character, then its Jongseong display
character or characters when present, for a total count of exactly 2 with no
trailing consonant, 3 with a simple trailing consonant (one display
character), and 4 with a composite trailing consonant (two display
characters); a parsed trailing consonant always has one or two display
characters. -/
theorem letter_disassemble_length :
    (∀ (s : List Nat) (l : HangulLetter), HangulLetter.parse s = some l →
      l.disassemble =
        l.choseong.compatibility_value :: l.jungseong.compatibility_value ::
          (match l.jongseong with
           | some j => j.disassembled
           | none => ([] : List Nat)) ∧
      (l.jongseong = none → l.disassemble.length = 2) ∧
      (∀ j, l.jongseong = some j →
        (j.disassembled.length = 1 ∨ j.disassembled.length = 2) ∧
        l.disassemble.length = 2 + j.disassembled.length)) ∧
    (∀ (c : Nat) (l : HangulLetter), HangulLetter.parse_from_char c = some l →
      l.disassemble =
        l.choseong.compatibility_value :: l.jungseong.compatibility_value ::
          (match l.jongseong with
           | some j => j.disassembled
           | none => ([] : List Nat)) ∧
      (l.jongseong = none → l.disassemble.length = 2) ∧
      (∀ j, l.jongseong = some j →
        (j.disassembled.length = 1 ∨ j.disassembled.length = 2) ∧
        l.disassemble.length = 2 + j.disassembled.length)) := by
  constructor
  · intro s l hp
    refine ⟨disassemble_shape l, ?_, ?_⟩
    · intro hnone
      simp [disassemble_shape l, hnone]
    · intro j hj
      refine ⟨parse_jong_length s l j hp hj, ?_⟩
      simp [disassemble_shape l, hj]
      omega
  · intro c l hp
    refine ⟨disassemble_shape l, ?_, ?_⟩
    · intro hnone
      simp [disassemble_shape l, hnone]
    · intro j hj
      refine ⟨parse_from_char_jong_length c l j hp hj, ?_⟩
      simp [disassemble_shape l, hj]
      omega

/-- Witness for C4 at the composite-final syllable U+AC12, whose disassembly
has 4 characters. -/
theorem letter_disassemble_length_witness :
    HangulLetter.parse [0xAC12] = some letterGabs ∧
    letterGabs.disassemble.length = 4 := by
  have hp : HangulLetter.parse [0xAC12] = some letterGabs := by decide
  have hj : letterGabs.jongseong
      = some { compatibility_value := 0x3144,
               disassembled := [0x3142, 0x3145] } := rfl
  have h4 := ((letter_disassemble_length.1 [0xAC12] letterGabs hp).2.2 _ hj).2
  exact ⟨hp, by simpa using h4⟩

/-- C5: the whole-string queries on the single-syllable input U+AC12 give
disassembly 0x3131 0x314F 0x3142 0x3145 (the trailing cluster splits into
two compatibility characters) and choseong extraction 0x3131. -/
theorem gabs_disassemble_choseong :
    ((Hangul.new [0xAC12]).disassemble).1 = [0x3131, 0x314F, 0x3142, 0x3145] ∧
    ((Hangul.new [0xAC12]).get_choseong).1 = [0x3131] := by
  decide

/-- C6 counterexample: the claim's conjunct that len = 3 holds exactly when
the Jongseong component is present fails for the letter parsed from the
precomposed syllable U+D55C, which has len = 1 and a present Jongseong. -/
theorem len_invariant_counterexample :
    ¬ (∀ l : HangulLetter, HangulLetter.parse_from_char 0xD55C = some l →
        (l.len = 3 ↔ l.jongseong.isSome = true)) := by
  intro hcl
  have h := hcl
    { value_chars := [0xD55C, 0, 0], unicode_codes := [0xD55C, 0, 0],
      len := 1, nfc := some 0xD55C,
      choseong := { compatibility_value := 0x314E },
      jungseong := { compatibility_value := 0x314F },
      jongseong := some { compatibility_value := 0x3134,
                          disassembled := [0x3134] } }
    (by decide)
  simp at h

/-- C6 amended: every constructed HangulLetter has len in 1..3; len = 1
exactly when it came from the NFC path (value_nfc present); and among
NFD-path letters (value_nfc absent) len = 3 holds exactly when the Jongseong
component is present. -/
theorem len_invariant_amended :
    (∀ (s : List Nat) (l : HangulLetter), HangulLetter.parse s = some l →
      (l.len = 1 ∨ l.len = 2 ∨ l.len = 3) ∧
      (l.len = 1 ↔ l.nfc.isSome = true) ∧
      (l.nfc = none → (l.len = 3 ↔ l.jongseong.isSome = true))) ∧
    (∀ (c : Nat) (l : HangulLetter), HangulLetter.parse_from_char c = some l →
      (l.len = 1 ∨ l.len = 2 ∨ l.len = 3) ∧
      (l.len = 1 ↔ l.nfc.isSome = true) ∧
      (l.nfc = none → (l.len = 3 ↔ l.jongseong.isSome = true))) := by
  constructor
  · intro s l hp
    rcases parse_some_cases s l hp with ⟨ch, nfd, hn, rfl⟩ | ⟨c1, c2, rfl⟩ |
      ⟨c1, c2, c3, hc3, rfl⟩ <;> simp
  · intro c l hp
    obtain ⟨nfd, hn, rfl⟩ := parse_from_char_some_cases c l hp
    simp

/-- Witness for the amended C6 at the decomposed run U+1100 U+1161. -/
theorem len_invariant_amended_witness :
    HangulLetter.parse [0x1100, 0x1161] = some letterGa2 ∧
    ((letterGa2.len = 1 ∨ letterGa2.len = 2 ∨ letterGa2.len = 3) ∧
     (letterGa2.len = 1 ↔ letterGa2.nfc.isSome = true) ∧
     (letterGa2.nfc = none →
       (letterGa2.len = 3 ↔ letterGa2.jongseong.isSome = true))) := by
  have hp : HangulLetter.parse [0x1100, 0x1161] = some letterGa2 := by decide
  exact ⟨hp, len_invariant_amended.1 [0x1100, 0x1161] letterGa2 hp⟩

/-- C7: for every string, Hangul.new keeps the original string verbatim, its
len is the number of Unicode scalar values of the input, and is_empty holds
exactly when that count is zero. -/
theorem hangul_new_original_len (s : List Nat) :
    (Hangul.new s).original = s ∧ (Hangul.new s).len = s.length ∧
      ((Hangul.new s).is_empty = true ↔ s.length = 0) := by
  refine ⟨rfl, by simp [Hangul.new, Hangul.len], ?_⟩
  cases s <;> simp [Hangul.new, Hangul.is_empty]

/-- C8: on any one Hangul instance, the second call to disassemble returns
the first call's value and leaves the instance fixed (so every later call
agrees), likewise for get_choseong; after the first call the corresponding
cache holds the returned value; and the two caches are independent: running
one query does not change the other's result. -/
theorem cache_idempotent (h : Hangul) :
    (h.disassemble.2).disassemble = (h.disassemble.1, h.disassemble.2) ∧
    (h.get_choseong.2).get_choseong = (h.get_choseong.1, h.get_choseong.2) ∧
    (h.disassemble.2).disassembled_cache = some h.disassemble.1 ∧
    (h.get_choseong.2).choseong_cache = some h.get_choseong.1 ∧
    ((h.get_choseong.2).disassemble).1 = h.disassemble.1 ∧
    ((h.disassemble.2).get_choseong).1 = h.get_choseong.1 := by
  obtain ⟨units, orig, dc, cc⟩ := h
  cases dc <;> cases cc <;>
    simp [Hangul.disassemble, Hangul.get_choseong, Hangul.disassemble_uncached,
          Hangul.choseong_uncached, Hangul.is_empty]

/-- C9: for every single character, HangulLetter.parse on the one-character
string agrees exactly (as a full structure, hence in source characters,
codepoints, len, cached NFC form and all three components) with
HangulLetter.parse_from_char on that character. -/
theorem parse_singleton_agrees (c : Nat) :
    HangulLetter.parse [c] = HangulLetter.parse_from_char c := by
  cases hc : NFC.is_nfc_hangul_char c <;>
    simp [HangulLetter.parse, HangulLetter.parse_from_char, NFC.is_nfc_hangul,
          NFD.is_nfd_hangul, hc]

/-- C10: for every string, the whole-string choseong extraction has exactly
as many Unicode scalar values as the input. -/
theorem choseong_length_eq (s : List Nat) :
    ((Hangul.new s).get_choseong).1.length = s.length := by
  rw [new_choseong_fst, choseong_uncached_eq, flatten_cho_length]
  simp [Hangul.new]

end RustyHangul
